import Mathlib

/-!
Verification of the testutil Accumulator (src/testutil/accumulator.go).

Shallow embedding conventions:
  * Go `time.Time` values are modelled as integers (`GoTime`); only equality of
    timestamps matters to the properties below.
  * Go maps (`map[string]string`, `map[string]interface{}`) are modelled as
    association lists; the Go `interface{}` field values are modelled by the
    closed union `FieldValue` following the value kinds the data model admits.
  * The `uint64` ingestion counter `nMetrics` is a `Nat` reduced mod `2^64`
    exactly where the Go atomic add can wrap.
  * The Go `error` interface is modelled as `GoError` (an opaque string); a
    possibly-nil error is an `Option GoError` (`none` is the nil error).
  * `a.Cond` (a lazily created `sync.Cond`) is modelled by the flag `hasCond`
    (whether `a.Cond != nil`) together with the instrumentation counter
    `broadcasts`, which counts the `a.Cond.Broadcast()` calls the code makes;
    this makes the wake-up side effect of each operation observable.
  * The buffered delivery channel `deliverChan` is modelled by its capacity and
    its queued (not yet received) contents; a `none` channel is the nil channel
    that exists before `WithTracking` is called.  In the sequential embedding
    there is no concurrently blocked receiver, so a `select`-with-`default`
    send succeeds exactly when the buffer has free capacity, and a panic is an
    `Except.error`.
  * Locking (`sync.Mutex`, `trackingMutex`) serialises the operations; the
    embedding works on the serialised history, so the locks themselves carry
    no state.
-/

/-- Go `time.Time`, reduced to the only structure the properties need. -/
abbrev GoTime := Int

/-- Go `error` values (non-nil), abstracted to their message. -/
abbrev GoError := String

/-- `telegraf.ValueType`: the semantic kind of a measurement. -/
inductive ValueType where
  | Untyped
  | Counter
  | Gauge
  | Summary
  | Histogram
deriving DecidableEq, Repr

/-- The closed union of field-value kinds (Go stores them as `interface{}`;
the data model admits signed/unsigned integers, strings and booleans — the
properties below are parametric in the value, so the exact set of variants is
immaterial). -/
inductive FieldValue where
  | i (v : Int)
  | u (v : Nat)
  | s (v : String)
  | b (v : Bool)
deriving DecidableEq, Repr

/-- `testutil.Metric`: a single point measurement (accumulator.go lines 17-24).
The Go field `Type` is rendered `Tp` because `Type` is a Lean keyword. -/
structure Metric where
  Measurement : String
  Tags : List (String × String)
  Fields : List (String × FieldValue)
  Time : GoTime
  Tp : ValueType
deriving DecidableEq, Repr

/-- Modelled from the spec: `telegraf.Metric` (package telegraf, not under
src/).  Per the spec data model a measurement is exactly a name, a tag
mapping, a field mapping, a timestamp and a kind; `FieldList()` exposes the
field mapping. -/
structure TMetric where
  name : String
  tags : List (String × String)
  fields : List (String × FieldValue)
  time : GoTime
  tp : ValueType
deriving DecidableEq, Repr

/-- Modelled from the spec: `testutil.FromTestMetric` (testutil metric
conversion helpers, not under src/) converts a test `Metric` into a
`telegraf.Metric` carrying the same five components. -/
def FromTestMetric (m : Metric) : TMetric :=
  ⟨m.Measurement, m.Tags, m.Fields, m.Time, m.Tp⟩

/-- Modelled from the spec: `testutil.ToTestMetric` (not under src/) converts
a `telegraf.Metric` into the test `Metric` carrying the same five
components. -/
def ToTestMetric (m : TMetric) : Metric :=
  ⟨m.name, m.tags, m.fields, m.time, m.tp⟩

/-- `telegraf.DeliveryInfo` as the spec describes the Delivery Notification:
an id, a delivered flag, and the count of members accepted. -/
structure DeliveryInfo where
  id : Nat
  delivered : Bool
  acceptedCount : Nat
deriving DecidableEq, Repr

/-- The buffered channel `deliverChan`: its capacity (fixed at
`WithTracking`) and the notifications queued in its buffer. -/
structure DeliveryChan where
  capacity : Nat
  buffer : List DeliveryInfo
deriving DecidableEq, Repr

/-- The modulus of the `uint64` ingestion counter. -/
def UINT64_MOD : Nat := 2 ^ 64

/-- `testutil.Accumulator` (accumulator.go lines 30-46).  `hasCond` and
`broadcasts` model the lazily created condition variable and its broadcast
events; `TimeFunc` is the injected clock (`none` is the nil function). -/
structure Accumulator where
  nMetrics : Nat
  Metrics : List Metric
  accumulated : List TMetric
  Discard : Bool
  Errors : List GoError
  debug : Bool
  deliverChan : Option DeliveryChan
  delivered : List DeliveryInfo
  TimeFunc : Option (Unit → GoTime)
  hasCond : Bool
  broadcasts : Nat

/-- The zero-value `Accumulator` a Go caller starts from: empty slices, nil
channel, nil clock, nil condition variable. -/
def initialAccumulator : Accumulator :=
  ⟨0, [], [], false, [], false, none, [], none, false, 0⟩

/-- `NMetrics` (lines 48-50): atomically reads the ingestion counter. -/
def Accumulator.NMetrics (a : Accumulator) : Nat := a.nMetrics

/-- `GetTelegrafMetrics` (lines 60-66): returns a copy of the accumulated
telegraf metrics (the copy of an immutable list is the list itself). -/
def Accumulator.GetTelegrafMetrics (a : Accumulator) : List TMetric :=
  a.accumulated

/-- `ClearMetrics` (lines 83-89): stores 0 into the counter and replaces both
measurement slices with fresh empty ones. -/
def Accumulator.ClearMetrics (a : Accumulator) : Accumulator :=
  { a with nMetrics := 0, Metrics := [], accumulated := [] }

/-- The `for k, v := range m` copy loops in `addMeasurement` (lines 112-120):
build a fresh map holding the same key/value pairs. -/
def copyMap {α β : Type} (m : List (α × β)) : List (α × β) :=
  m.foldl (fun acc kv => acc ++ [kv]) []

/-- The block `if a.Cond != nil { a.Cond.Broadcast() }` that follows every
state mutation: when a condition variable exists, wake all waiters (recorded
on the instrumentation counter `broadcasts`). -/
def bumpBroadcasts (a : Accumulator) : Accumulator :=
  if a.hasCond then { a with broadcasts := a.broadcasts + 1 } else a

/-- Timestamp resolution in `addMeasurement` (lines 122-131): the first
variadic argument when one was passed, else the injected clock `TimeFunc`,
else the wall-clock reading `now` that `time.Now()` returns at ingestion. -/
def resolveTime (tf : Option (Unit → GoTime)) (timestamp : List GoTime)
    (now : GoTime) : GoTime :=
  match timestamp with
  | t :: _ => t
  | [] =>
    match tf with
    | none => now
    | some f => f ()

/-- `addMeasurement` (lines 91-143): increments the counter, broadcasts when a
condition variable exists, then — unless discarding or the field map is
empty — deep-copies tags and fields, resolves the timestamp and appends the
measurement to both stored sequences.  `timestamp` models the Go variadic
parameter; `now` is the ambient wall-clock reading `time.Now()` would
return. -/
def addMeasurement (a : Accumulator) (measurement : String)
    (tags : List (String × String)) (fields : List (String × FieldValue))
    (tp : ValueType) (timestamp : List GoTime) (now : GoTime) : Accumulator :=
  let a1 : Accumulator := bumpBroadcasts { a with nMetrics := (a.nMetrics + 1) % UINT64_MOD }
  if a1.Discard then a1
  else if fields.length = 0 then a1
  else
    let tagsCopy := copyMap tags
    let fieldsCopy := copyMap fields
    let t : GoTime := resolveTime a1.TimeFunc timestamp now
    let m : Metric := ⟨measurement, tagsCopy, fieldsCopy, t, tp⟩
    { a1 with
      Metrics := a1.Metrics ++ [m],
      accumulated := a1.accumulated ++ [FromTestMetric m] }

/-- `AddFields` (lines 146-153). -/
def Accumulator.AddFields (a : Accumulator) (measurement : String)
    (fields : List (String × FieldValue)) (tags : List (String × String))
    (timestamp : List GoTime) (now : GoTime) : Accumulator :=
  addMeasurement a measurement tags fields ValueType.Untyped timestamp now

/-- `AddCounter` (lines 155-162). -/
def Accumulator.AddCounter (a : Accumulator) (measurement : String)
    (fields : List (String × FieldValue)) (tags : List (String × String))
    (timestamp : List GoTime) (now : GoTime) : Accumulator :=
  addMeasurement a measurement tags fields ValueType.Counter timestamp now

/-- `AddGauge` (lines 164-171). -/
def Accumulator.AddGauge (a : Accumulator) (measurement : String)
    (fields : List (String × FieldValue)) (tags : List (String × String))
    (timestamp : List GoTime) (now : GoTime) : Accumulator :=
  addMeasurement a measurement tags fields ValueType.Gauge timestamp now

/-- `AddSummary` (lines 179-186). -/
def Accumulator.AddSummary (a : Accumulator) (measurement : String)
    (fields : List (String × FieldValue)) (tags : List (String × String))
    (timestamp : List GoTime) (now : GoTime) : Accumulator :=
  addMeasurement a measurement tags fields ValueType.Summary timestamp now

/-- `AddHistogram` (lines 188-195). -/
def Accumulator.AddHistogram (a : Accumulator) (measurement : String)
    (fields : List (String × FieldValue)) (tags : List (String × String))
    (timestamp : List GoTime) (now : GoTime) : Accumulator :=
  addMeasurement a measurement tags fields ValueType.Histogram timestamp now

/-- `AddMetric` (lines 197-215): same counter/broadcast/drop rules, appending
`ToTestMetric m` and `m` to the two sequences. -/
def Accumulator.AddMetric (a : Accumulator) (m : TMetric) : Accumulator :=
  let a1 : Accumulator := bumpBroadcasts { a with nMetrics := (a.nMetrics + 1) % UINT64_MOD }
  if a1.Discard then a1
  else if m.fields.length = 0 then a1
  else
    { a1 with
      Metrics := a1.Metrics ++ [ToTestMetric m],
      accumulated := a1.accumulated ++ [m] }

/-- `WithTracking` (lines 217-223): allocates a delivery channel of capacity
`maxTracked` and an empty resolved-deliveries list. -/
def Accumulator.WithTracking (a : Accumulator) (maxTracked : Nat) : Accumulator :=
  { a with deliverChan := some ⟨maxTracked, []⟩, delivered := [] }

/-- `onDelivery` (lines 239-247): a non-blocking send on `deliverChan`.  With
no concurrently blocked receiver the send is ready exactly when the buffer
has free capacity; otherwise (including the nil channel) the `default` branch
panics with "channel is full". -/
def Accumulator.onDelivery (a : Accumulator) (info : DeliveryInfo) :
    Except String Accumulator :=
  match a.deliverChan with
  | some ch =>
    if ch.buffer.length < ch.capacity then
      Except.ok { a with deliverChan := some ⟨ch.capacity, ch.buffer ++ [info]⟩ }
    else
      Except.error "channel is full"
  | none => Except.error "channel is full"

/-- `AddError` (lines 256-266): a nil error returns immediately; otherwise the
error is appended and, when a condition variable exists, waiters are woken. -/
def Accumulator.AddError (a : Accumulator) (err : Option GoError) : Accumulator :=
  match err with
  | none => a
  | some e => bumpBroadcasts { a with Errors := a.Errors ++ [e] }

/-- `SetDebug` (lines 279-282). -/
def Accumulator.SetDebug (a : Accumulator) (debug : Bool) : Accumulator :=
  { a with debug := debug }

/-- The state-mutating part of `Wait`/`WaitError` (lines 356-377): the lazy
creation of the condition variable.  The blocking itself suspends the caller
and changes no accumulator state. -/
def Accumulator.waitInit (a : Accumulator) : Accumulator :=
  if a.hasCond then a else { a with hasCond := true }

/-- Modelled from the spec: the tracking data `metric.WithGroupTracking`
attaches to a group (package metric, not under src/).  The spec describes an
obligation as an id, a member count with an acknowledged count (kept here as
the remaining unacknowledged count), and an accepted count. -/
structure TrackingData where
  id : Nat
  remaining : Nat
  acceptedCount : Nat
deriving DecidableEq, Repr

/-- Modelled from the spec: a fresh obligation created by
`metric.WithGroupTracking` for a group of `n` members, before any member has
been acknowledged. -/
def freshGroup (id n : Nat) : TrackingData :=
  ⟨id, n, 0⟩

/-- Modelled from the spec: `OnMemberDelivered(id, accepted)` — decrements
the remaining count, accumulates the accepted flag, and when the remaining
count reaches zero constructs the terminal Delivery Notification (with
`delivered` set, carrying the accepted count).  The returned list holds the
notifications this call hands to the delivery callback (`onDelivery`): empty
or a singleton. -/
def onMemberDelivered (td : TrackingData) (accepted : Bool) :
    TrackingData × List DeliveryInfo :=
  let td2 : TrackingData :=
    ⟨td.id, td.remaining - 1, td.acceptedCount + (if accepted then 1 else 0)⟩
  if td2.remaining = 0 then (td2, [⟨td.id, true, td2.acceptedCount⟩])
  else (td2, [])

/-- A serialised history of `OnMemberDelivered` completions: the booleans are
the accepted flags in the order the completions were reported.  Returns the
final tracking data and every notification emitted along the way. -/
def deliverSeq : TrackingData → List Bool → TrackingData × List DeliveryInfo
  | td, [] => (td, [])
  | td, b :: bs =>
    let step := onMemberDelivered td b
    let rest := deliverSeq step.1 bs
    (rest.1, step.2 ++ rest.2)

/-- The number of completions reported with `accepted = true`. -/
def countTrue : List Bool → Nat
  | [] => 0
  | b :: bs => (if b then 1 else 0) + countTrue bs

/-- The serialised mutating operations of the Accumulator surface; read-only
queries (`Get`, `Has*`, field accessors, `NMetrics`, snapshots) leave the
state untouched and are omitted. -/
inductive Op where
  | opAddFields (measurement : String) (fields : List (String × FieldValue))
      (tags : List (String × String)) (timestamp : List GoTime) (now : GoTime)
  | opAddCounter (measurement : String) (fields : List (String × FieldValue))
      (tags : List (String × String)) (timestamp : List GoTime) (now : GoTime)
  | opAddGauge (measurement : String) (fields : List (String × FieldValue))
      (tags : List (String × String)) (timestamp : List GoTime) (now : GoTime)
  | opAddSummary (measurement : String) (fields : List (String × FieldValue))
      (tags : List (String × String)) (timestamp : List GoTime) (now : GoTime)
  | opAddHistogram (measurement : String) (fields : List (String × FieldValue))
      (tags : List (String × String)) (timestamp : List GoTime) (now : GoTime)
  | opAddMetric (m : TMetric)
  | opAddError (err : Option GoError)
  | opClearMetrics
  | opWithTracking (maxTracked : Nat)
  | opSetDebug (debug : Bool)
  | opWaitInit
deriving DecidableEq

/-- Applies one serialised operation to the accumulator state. -/
def applyOp (a : Accumulator) : Op → Accumulator
  | Op.opAddFields nm fs tg ts now => a.AddFields nm fs tg ts now
  | Op.opAddCounter nm fs tg ts now => a.AddCounter nm fs tg ts now
  | Op.opAddGauge nm fs tg ts now => a.AddGauge nm fs tg ts now
  | Op.opAddSummary nm fs tg ts now => a.AddSummary nm fs tg ts now
  | Op.opAddHistogram nm fs tg ts now => a.AddHistogram nm fs tg ts now
  | Op.opAddMetric m => a.AddMetric m
  | Op.opAddError e => a.AddError e
  | Op.opClearMetrics => a.ClearMetrics
  | Op.opWithTracking n => a.WithTracking n
  | Op.opSetDebug d => a.SetDebug d
  | Op.opWaitInit => a.waitInit

/-- Runs a serialised history of operations from a starting state. -/
def runOps (a : Accumulator) (ops : List Op) : Accumulator :=
  ops.foldl applyOp a

/-- The invariant that the test-format list `Metrics` and the accumulated
telegraf-metric list always have the same length. -/
def lenInv (a : Accumulator) : Prop :=
  a.Metrics.length = a.accumulated.length

/-- Scenario history: five submissions, each carrying a non-empty field map. -/
def fiveSubmissions : List Op :=
  [Op.opAddFields "m1" [("f", FieldValue.i 1)] [] [10] 0,
   Op.opAddFields "m2" [("f", FieldValue.i 2)] [] [20] 0,
   Op.opAddFields "m3" [("f", FieldValue.i 3)] [] [30] 0,
   Op.opAddFields "m4" [("f", FieldValue.i 4)] [] [40] 0,
   Op.opAddFields "m5" [("f", FieldValue.i 5)] [] [50] 0]

/-!  Helper lemmas about the embedded operations.  -/

theorem copyMap_foldl {α β : Type} (m : List (α × β)) (init : List (α × β)) :
    m.foldl (fun acc kv => acc ++ [kv]) init = init ++ m := by
  induction m generalizing init with
  | nil => simp
  | cons x xs ih => simp [List.foldl_cons, ih]

/-- The Go copy loop produces a map with exactly the pairs of its input. -/
theorem copyMap_eq {α β : Type} (m : List (α × β)) : copyMap m = m := by
  simp [copyMap, copyMap_foldl]

@[simp] theorem bumpBroadcasts_nMetrics (a : Accumulator) :
    (bumpBroadcasts a).nMetrics = a.nMetrics := by
  unfold bumpBroadcasts; split <;> rfl

@[simp] theorem bumpBroadcasts_Metrics (a : Accumulator) :
    (bumpBroadcasts a).Metrics = a.Metrics := by
  unfold bumpBroadcasts; split <;> rfl

@[simp] theorem bumpBroadcasts_accumulated (a : Accumulator) :
    (bumpBroadcasts a).accumulated = a.accumulated := by
  unfold bumpBroadcasts; split <;> rfl

@[simp] theorem bumpBroadcasts_Discard (a : Accumulator) :
    (bumpBroadcasts a).Discard = a.Discard := by
  unfold bumpBroadcasts; split <;> rfl

@[simp] theorem bumpBroadcasts_Errors (a : Accumulator) :
    (bumpBroadcasts a).Errors = a.Errors := by
  unfold bumpBroadcasts; split <;> rfl

@[simp] theorem bumpBroadcasts_debug (a : Accumulator) :
    (bumpBroadcasts a).debug = a.debug := by
  unfold bumpBroadcasts; split <;> rfl

@[simp] theorem bumpBroadcasts_deliverChan (a : Accumulator) :
    (bumpBroadcasts a).deliverChan = a.deliverChan := by
  unfold bumpBroadcasts; split <;> rfl

@[simp] theorem bumpBroadcasts_delivered (a : Accumulator) :
    (bumpBroadcasts a).delivered = a.delivered := by
  unfold bumpBroadcasts; split <;> rfl

@[simp] theorem bumpBroadcasts_TimeFunc (a : Accumulator) :
    (bumpBroadcasts a).TimeFunc = a.TimeFunc := by
  unfold bumpBroadcasts; split <;> rfl

@[simp] theorem bumpBroadcasts_hasCond (a : Accumulator) :
    (bumpBroadcasts a).hasCond = a.hasCond := by
  unfold bumpBroadcasts; split <;> rfl

theorem bumpBroadcasts_broadcasts (a : Accumulator) :
    (bumpBroadcasts a).broadcasts =
      if a.hasCond then a.broadcasts + 1 else a.broadcasts := by
  unfold bumpBroadcasts; split <;> simp_all

theorem addMeasurement_nMetrics (a : Accumulator) (nm : String)
    (tg : List (String × String)) (fs : List (String × FieldValue))
    (tp : ValueType) (ts : List GoTime) (now : GoTime) :
    (addMeasurement a nm tg fs tp ts now).nMetrics = (a.nMetrics + 1) % UINT64_MOD := by
  unfold addMeasurement
  by_cases hd : a.Discard <;> by_cases hf : fs.length = 0 <;> simp [hd, hf]

theorem addMeasurement_broadcasts (a : Accumulator) (nm : String)
    (tg : List (String × String)) (fs : List (String × FieldValue))
    (tp : ValueType) (ts : List GoTime) (now : GoTime) :
    (addMeasurement a nm tg fs tp ts now).broadcasts =
      if a.hasCond then a.broadcasts + 1 else a.broadcasts := by
  unfold addMeasurement
  by_cases hd : a.Discard <;> by_cases hf : fs.length = 0 <;>
    simp [hd, hf, bumpBroadcasts_broadcasts]

/-- Everything `addMeasurement` leaves untouched. -/
theorem addMeasurement_frame (a : Accumulator) (nm : String)
    (tg : List (String × String)) (fs : List (String × FieldValue))
    (tp : ValueType) (ts : List GoTime) (now : GoTime) :
    (addMeasurement a nm tg fs tp ts now).Errors = a.Errors ∧
    (addMeasurement a nm tg fs tp ts now).Discard = a.Discard ∧
    (addMeasurement a nm tg fs tp ts now).debug = a.debug ∧
    (addMeasurement a nm tg fs tp ts now).deliverChan = a.deliverChan ∧
    (addMeasurement a nm tg fs tp ts now).delivered = a.delivered ∧
    (addMeasurement a nm tg fs tp ts now).TimeFunc = a.TimeFunc ∧
    (addMeasurement a nm tg fs tp ts now).hasCond = a.hasCond := by
  unfold addMeasurement
  by_cases hd : a.Discard <;> by_cases hf : fs.length = 0 <;> simp [hd, hf]

/-- Under the discard flag nothing is stored. -/
theorem addMeasurement_discard (a : Accumulator) (nm : String)
    (tg : List (String × String)) (fs : List (String × FieldValue))
    (tp : ValueType) (ts : List GoTime) (now : GoTime)
    (hd : a.Discard = true) :
    (addMeasurement a nm tg fs tp ts now).Metrics = a.Metrics ∧
    (addMeasurement a nm tg fs tp ts now).accumulated = a.accumulated := by
  unfold addMeasurement
  simp [hd]

/-- An empty field map is dropped and nothing is stored. -/
theorem addMeasurement_empty (a : Accumulator) (nm : String)
    (tg : List (String × String)) (fs : List (String × FieldValue))
    (tp : ValueType) (ts : List GoTime) (now : GoTime)
    (hf : fs.length = 0) :
    (addMeasurement a nm tg fs tp ts now).Metrics = a.Metrics ∧
    (addMeasurement a nm tg fs tp ts now).accumulated = a.accumulated := by
  unfold addMeasurement
  by_cases hd : a.Discard <;> simp [hd, hf]

/-- The storing branch: one measurement carrying exactly the supplied
components (and the resolved timestamp) is appended to both sequences. -/
theorem addMeasurement_store (a : Accumulator) (nm : String)
    (tg : List (String × String)) (fs : List (String × FieldValue))
    (tp : ValueType) (ts : List GoTime) (now : GoTime)
    (hd : a.Discard = false) (hf : fs.length ≠ 0) :
    (addMeasurement a nm tg fs tp ts now).Metrics =
      a.Metrics ++ [⟨nm, tg, fs, resolveTime a.TimeFunc ts now, tp⟩] ∧
    (addMeasurement a nm tg fs tp ts now).accumulated =
      a.accumulated ++ [FromTestMetric ⟨nm, tg, fs, resolveTime a.TimeFunc ts now, tp⟩] := by
  unfold addMeasurement
  simp [hd, hf, copyMap_eq]

theorem AddMetric_nMetrics (a : Accumulator) (m : TMetric) :
    (a.AddMetric m).nMetrics = (a.nMetrics + 1) % UINT64_MOD := by
  unfold Accumulator.AddMetric
  by_cases hd : a.Discard <;> by_cases hf : m.fields.length = 0 <;> simp [hd, hf]

theorem AddMetric_broadcasts (a : Accumulator) (m : TMetric) :
    (a.AddMetric m).broadcasts =
      if a.hasCond then a.broadcasts + 1 else a.broadcasts := by
  unfold Accumulator.AddMetric
  by_cases hd : a.Discard <;> by_cases hf : m.fields.length = 0 <;>
    simp [hd, hf, bumpBroadcasts_broadcasts]

/-- Everything `AddMetric` leaves untouched. -/
theorem AddMetric_frame (a : Accumulator) (m : TMetric) :
    (a.AddMetric m).Errors = a.Errors ∧
    (a.AddMetric m).Discard = a.Discard ∧
    (a.AddMetric m).debug = a.debug ∧
    (a.AddMetric m).deliverChan = a.deliverChan ∧
    (a.AddMetric m).delivered = a.delivered ∧
    (a.AddMetric m).TimeFunc = a.TimeFunc ∧
    (a.AddMetric m).hasCond = a.hasCond := by
  unfold Accumulator.AddMetric
  by_cases hd : a.Discard <;> by_cases hf : m.fields.length = 0 <;> simp [hd, hf]

theorem AddMetric_discard (a : Accumulator) (m : TMetric)
    (hd : a.Discard = true) :
    (a.AddMetric m).Metrics = a.Metrics ∧
    (a.AddMetric m).accumulated = a.accumulated := by
  unfold Accumulator.AddMetric
  simp [hd]

theorem AddMetric_empty (a : Accumulator) (m : TMetric)
    (hf : m.fields.length = 0) :
    (a.AddMetric m).Metrics = a.Metrics ∧
    (a.AddMetric m).accumulated = a.accumulated := by
  unfold Accumulator.AddMetric
  by_cases hd : a.Discard <;> simp [hd, hf]

theorem AddMetric_store (a : Accumulator) (m : TMetric)
    (hd : a.Discard = false) (hf : m.fields.length ≠ 0) :
    (a.AddMetric m).Metrics = a.Metrics ++ [ToTestMetric m] ∧
    (a.AddMetric m).accumulated = a.accumulated ++ [m] := by
  unfold Accumulator.AddMetric
  simp [hd, hf]

/-- A completion that is not the last one emits nothing. -/
theorem onMemberDelivered_pos (td : TrackingData) (b : Bool)
    (h : 2 ≤ td.remaining) :
    onMemberDelivered td b =
      (⟨td.id, td.remaining - 1, td.acceptedCount + (if b then 1 else 0)⟩, []) := by
  unfold onMemberDelivered
  have hz : ¬(td.remaining - 1 = 0) := by omega
  simp [hz]

/-- The last completion emits the terminal notification. -/
theorem onMemberDelivered_last (td : TrackingData) (b : Bool)
    (h : td.remaining = 1) :
    onMemberDelivered td b =
      (⟨td.id, 0, td.acceptedCount + (if b then 1 else 0)⟩,
       [⟨td.id, true, td.acceptedCount + (if b then 1 else 0)⟩]) := by
  unfold onMemberDelivered
  simp [h]

/-- Fewer completions than remaining members: no notification is emitted and
the counts advance by exactly the completions reported. -/
theorem deliverSeq_lt (bs : List Bool) (td : TrackingData)
    (h : bs.length < td.remaining) :
    deliverSeq td bs =
      (⟨td.id, td.remaining - bs.length, td.acceptedCount + countTrue bs⟩, []) := by
  induction bs generalizing td with
  | nil =>
    obtain ⟨i, r, c⟩ := td
    simp [deliverSeq, countTrue]
  | cons b bs ih =>
    obtain ⟨i, r, c⟩ := td
    simp only [List.length_cons] at h
    simp only [deliverSeq]
    rw [onMemberDelivered_pos ⟨i, r, c⟩ b (by simp; omega)]
    rw [ih ⟨i, r - 1, c + (if b then 1 else 0)⟩ (by simp; omega)]
    simp [countTrue]
    constructor
    · omega
    · omega

theorem addMeasurement_lenInv (a : Accumulator) (nm : String)
    (tg : List (String × String)) (fs : List (String × FieldValue))
    (tp : ValueType) (ts : List GoTime) (now : GoTime)
    (h : lenInv a) : lenInv (addMeasurement a nm tg fs tp ts now) := by
  unfold lenInv at *
  by_cases hd : a.Discard = true
  · obtain ⟨h1, h2⟩ := addMeasurement_discard a nm tg fs tp ts now hd
    rw [h1, h2]; exact h
  · by_cases hf : fs.length = 0
    · obtain ⟨h1, h2⟩ := addMeasurement_empty a nm tg fs tp ts now hf
      rw [h1, h2]; exact h
    · obtain ⟨h1, h2⟩ :=
        addMeasurement_store a nm tg fs tp ts now (by simpa using hd) hf
      rw [h1, h2]; simp [h]

theorem AddMetric_lenInv (a : Accumulator) (m : TMetric)
    (h : lenInv a) : lenInv (a.AddMetric m) := by
  unfold lenInv at *
  by_cases hd : a.Discard = true
  · obtain ⟨h1, h2⟩ := AddMetric_discard a m hd
    rw [h1, h2]; exact h
  · by_cases hf : m.fields.length = 0
    · obtain ⟨h1, h2⟩ := AddMetric_empty a m hf
      rw [h1, h2]; exact h
    · obtain ⟨h1, h2⟩ := AddMetric_store a m (by simpa using hd) hf
      rw [h1, h2]; simp [h]

/-- Every serialised operation preserves the equal-length invariant. -/
theorem applyOp_lenInv (a : Accumulator) (op : Op)
    (h : lenInv a) : lenInv (applyOp a op) := by
  cases op with
  | opAddFields nm fs tg ts now => exact addMeasurement_lenInv a nm tg fs _ ts now h
  | opAddCounter nm fs tg ts now => exact addMeasurement_lenInv a nm tg fs _ ts now h
  | opAddGauge nm fs tg ts now => exact addMeasurement_lenInv a nm tg fs _ ts now h
  | opAddSummary nm fs tg ts now => exact addMeasurement_lenInv a nm tg fs _ ts now h
  | opAddHistogram nm fs tg ts now => exact addMeasurement_lenInv a nm tg fs _ ts now h
  | opAddMetric m => exact AddMetric_lenInv a m h
  | opAddError e =>
    cases e with
    | none => exact h
    | some e =>
      unfold lenInv at *
      simpa [applyOp, Accumulator.AddError] using h
  | opClearMetrics => simp [applyOp, Accumulator.ClearMetrics, lenInv]
  | opWithTracking n =>
    unfold lenInv at *
    simpa [applyOp, Accumulator.WithTracking] using h
  | opSetDebug d =>
    unfold lenInv at *
    simpa [applyOp, Accumulator.SetDebug] using h
  | opWaitInit =>
    unfold lenInv at *
    simp only [applyOp, Accumulator.waitInit]
    split <;> exact h

theorem runOps_lenInv (ops : List Op) (a : Accumulator)
    (h : lenInv a) : lenInv (runOps a ops) := by
  induction ops generalizing a with
  | nil => exact h
  | cons op ops ih => exact ih (applyOp a op) (applyOp_lenInv a op h)

/-- Exactly as many completions as remaining members: the single terminal
notification carries the count of accepted completions. -/
theorem deliverSeq_last (bs : List Bool) (td : TrackingData)
    (h : bs.length = td.remaining) (h0 : 0 < td.remaining) :
    (deliverSeq td bs).2 = [⟨td.id, true, td.acceptedCount + countTrue bs⟩] := by
  induction bs generalizing td with
  | nil =>
    simp at h
    omega
  | cons b bs ih =>
    obtain ⟨i, r, c⟩ := td
    simp only [List.length_cons] at h
    simp only at h0
    rcases Nat.lt_or_ge r 2 with hr | hr
    · have hr1 : r = 1 := by omega
      have hbs : bs = [] := by
        have : bs.length = 0 := by omega
        exact List.length_eq_zero.mp this
      subst hbs
      simp only [deliverSeq]
      rw [onMemberDelivered_last ⟨i, r, c⟩ b (by simpa using hr1)]
      simp [countTrue]
    · simp only [deliverSeq]
      rw [onMemberDelivered_pos ⟨i, r, c⟩ b (by simpa using hr)]
      rw [ih ⟨i, r - 1, c + (if b then 1 else 0)⟩ (by simp; omega) (by simp; omega)]
      simp [countTrue]
      omega

/-!  The claims.  -/

/-- C1: for a tracking group of N members, the terminal Delivery Notification
for the group id is emitted exactly once, and only after all N
`OnMemberDelivered` completions, for every order of those completions; the
accepted count it carries equals the number of completions reported with
`accepted = true`. -/
theorem c1_group_terminal_notification (id n : Nat) (bs : List Bool)
    (hn : 0 < n) (hlen : bs.length = n) :
    (deliverSeq (freshGroup id n) bs).2 = [⟨id, true, countTrue bs⟩] ∧
    ∀ k, k < n → (deliverSeq (freshGroup id n) (bs.take k)).2 = [] := by
  constructor
  · have hres := deliverSeq_last bs (freshGroup id n)
      (by simpa [freshGroup] using hlen) (by simpa [freshGroup] using hn)
    simpa [freshGroup] using hres
  · intro k hk
    have hlt : (bs.take k).length < (freshGroup id n).remaining := by
      simp [freshGroup, List.length_take]
      omega
    rw [deliverSeq_lt _ _ hlt]

theorem c1_witness :
    (deliverSeq (freshGroup 7 2) [true, false]).2 = [⟨7, true, 1⟩] ∧
    ∀ k, k < 2 → (deliverSeq (freshGroup 7 2) ([true, false].take k)).2 = [] :=
  c1_group_terminal_notification 7 2 [true, false] (by decide) rfl

/-- C2: a measurement submitted with an empty field mapping — through
`addMeasurement` (hence any of AddFields/AddCounter/AddGauge/AddSummary/
AddHistogram) or through `AddMetric` — increments the ingestion counter by
one but adds no entry to either stored sequence. -/
theorem c2_empty_fields_counted_not_stored (a : Accumulator) (nm : String)
    (tg : List (String × String)) (tp : ValueType) (ts : List GoTime)
    (now : GoTime) (nm2 : String) (tg2 : List (String × String)) (t2 : GoTime)
    (tp2 : ValueType) :
    ((addMeasurement a nm tg [] tp ts now).nMetrics = (a.nMetrics + 1) % UINT64_MOD ∧
     (addMeasurement a nm tg [] tp ts now).Metrics = a.Metrics ∧
     (addMeasurement a nm tg [] tp ts now).GetTelegrafMetrics = a.GetTelegrafMetrics) ∧
    ((a.AddMetric ⟨nm2, tg2, [], t2, tp2⟩).nMetrics = (a.nMetrics + 1) % UINT64_MOD ∧
     (a.AddMetric ⟨nm2, tg2, [], t2, tp2⟩).Metrics = a.Metrics ∧
     (a.AddMetric ⟨nm2, tg2, [], t2, tp2⟩).GetTelegrafMetrics = a.GetTelegrafMetrics) := by
  have h1 := addMeasurement_nMetrics a nm tg [] tp ts now
  have h2 := addMeasurement_empty a nm tg [] tp ts now rfl
  have h3 := AddMetric_nMetrics a ⟨nm2, tg2, [], t2, tp2⟩
  have h4 := AddMetric_empty a ⟨nm2, tg2, [], t2, tp2⟩ rfl
  exact ⟨⟨h1, h2.1, by simpa [Accumulator.GetTelegrafMetrics] using h2.2⟩,
         ⟨h3, h4.1, by simpa [Accumulator.GetTelegrafMetrics] using h4.2⟩⟩

/-- C3: a delivery notification produced while the queue already holds as
many notifications as the capacity reserved by `WithTracking` makes
`onDelivery` hit the `default` branch of its non-blocking `select` and panic
("channel is full"); the notification is neither dropped silently nor does
the send block. -/
theorem c3_full_queue_panics (a : Accumulator) (info : DeliveryInfo)
    (cap : Nat) (buf : List DeliveryInfo)
    (hch : a.deliverChan = some ⟨cap, buf⟩) (hfull : buf.length = cap) :
    a.onDelivery info = Except.error "channel is full" := by
  unfold Accumulator.onDelivery
  rw [hch]
  simp [hfull]

theorem c3_witness :
    (initialAccumulator.WithTracking 0).onDelivery ⟨1, true, 1⟩ =
      Except.error "channel is full" :=
  c3_full_queue_panics (initialAccumulator.WithTracking 0) ⟨1, true, 1⟩ 0 [] rfl rfl

/-- Part of C4: the claim "no operation ever decreases the ingestion counter"
is false at a concrete input — after one stored submission the counter is 1,
and `ClearMetrics` then stores 0 into it. -/
theorem c4_counterexample :
    ((addMeasurement initialAccumulator "m" [] [("f", FieldValue.i 1)]
        ValueType.Untyped [0] 0).ClearMetrics).nMetrics <
      (addMeasurement initialAccumulator "m" [] [("f", FieldValue.i 1)]
        ValueType.Untyped [0] 0).nMetrics := by
  decide

/-- C4 (amended): the ingestion counter read by `NMetrics` never decreases
under any serialised operation other than `ClearMetrics` (as long as the
`uint64` counter has not reached its maximum, where the atomic add wraps);
`ClearMetrics` resets the counter to zero. -/
theorem c4_amended_counter_monotone (a : Accumulator) (op : Op)
    (hop : op ≠ Op.opClearMetrics) (hw : a.nMetrics + 1 < UINT64_MOD) :
    a.NMetrics ≤ (applyOp a op).NMetrics ∧
    (a.ClearMetrics).NMetrics = 0 := by
  refine ⟨?_, rfl⟩
  cases op with
  | opAddFields nm fs tg ts now =>
    simp only [applyOp, Accumulator.AddFields, Accumulator.NMetrics,
      addMeasurement_nMetrics, Nat.mod_eq_of_lt hw]
    omega
  | opAddCounter nm fs tg ts now =>
    simp only [applyOp, Accumulator.AddCounter, Accumulator.NMetrics,
      addMeasurement_nMetrics, Nat.mod_eq_of_lt hw]
    omega
  | opAddGauge nm fs tg ts now =>
    simp only [applyOp, Accumulator.AddGauge, Accumulator.NMetrics,
      addMeasurement_nMetrics, Nat.mod_eq_of_lt hw]
    omega
  | opAddSummary nm fs tg ts now =>
    simp only [applyOp, Accumulator.AddSummary, Accumulator.NMetrics,
      addMeasurement_nMetrics, Nat.mod_eq_of_lt hw]
    omega
  | opAddHistogram nm fs tg ts now =>
    simp only [applyOp, Accumulator.AddHistogram, Accumulator.NMetrics,
      addMeasurement_nMetrics, Nat.mod_eq_of_lt hw]
    omega
  | opAddMetric m =>
    simp only [applyOp, Accumulator.NMetrics, AddMetric_nMetrics,
      Nat.mod_eq_of_lt hw]
    omega
  | opAddError e =>
    cases e with
    | none => simp [applyOp, Accumulator.AddError, Accumulator.NMetrics]
    | some e => simp [applyOp, Accumulator.AddError, Accumulator.NMetrics]
  | opClearMetrics => exact absurd rfl hop
  | opWithTracking n => simp [applyOp, Accumulator.WithTracking, Accumulator.NMetrics]
  | opSetDebug d => simp [applyOp, Accumulator.SetDebug, Accumulator.NMetrics]
  | opWaitInit =>
    simp only [applyOp, Accumulator.waitInit, Accumulator.NMetrics]
    split <;> simp

theorem c4_amended_witness :
    initialAccumulator.NMetrics ≤
      (applyOp initialAccumulator
        (Op.opAddFields "m" [("f", FieldValue.i 1)] [] [0] 0)).NMetrics ∧
    (initialAccumulator.ClearMetrics).NMetrics = 0 :=
  c4_amended_counter_monotone initialAccumulator
    (Op.opAddFields "m" [("f", FieldValue.i 1)] [] [0] 0) (by decide) (by decide)

/-- C5: with the discard flag set, every Add* call still increments the
ingestion counter and (when a condition variable exists) broadcasts to wake
blocked waiters, but stores nothing; in particular five submissions with
non-empty fields under discard leave the counter at 5 and both stored
sequences empty. -/
theorem c5_discard_counts_never_stores (a : Accumulator) (nm : String)
    (tg : List (String × String)) (fs : List (String × FieldValue))
    (tp : ValueType) (ts : List GoTime) (now : GoTime) (m : TMetric)
    (hd : a.Discard = true) :
    ((addMeasurement a nm tg fs tp ts now).nMetrics = (a.nMetrics + 1) % UINT64_MOD ∧
     (a.hasCond = true → (addMeasurement a nm tg fs tp ts now).broadcasts = a.broadcasts + 1) ∧
     (addMeasurement a nm tg fs tp ts now).Metrics = a.Metrics ∧
     (addMeasurement a nm tg fs tp ts now).accumulated = a.accumulated) ∧
    ((a.AddMetric m).nMetrics = (a.nMetrics + 1) % UINT64_MOD ∧
     (a.hasCond = true → (a.AddMetric m).broadcasts = a.broadcasts + 1) ∧
     (a.AddMetric m).Metrics = a.Metrics ∧
     (a.AddMetric m).accumulated = a.accumulated) ∧
    ((runOps { initialAccumulator with Discard := true } fiveSubmissions).nMetrics = 5 ∧
     (runOps { initialAccumulator with Discard := true } fiveSubmissions).Metrics = [] ∧
     (runOps { initialAccumulator with Discard := true } fiveSubmissions).accumulated = []) := by
  refine ⟨⟨addMeasurement_nMetrics a nm tg fs tp ts now, ?_, ?_, ?_⟩,
          ⟨AddMetric_nMetrics a m, ?_, ?_, ?_⟩, by decide, by decide, by decide⟩
  · intro hc
    rw [addMeasurement_broadcasts a nm tg fs tp ts now, if_pos hc]
  · exact (addMeasurement_discard a nm tg fs tp ts now hd).1
  · exact (addMeasurement_discard a nm tg fs tp ts now hd).2
  · intro hc
    rw [AddMetric_broadcasts a m, if_pos hc]
  · exact (AddMetric_discard a m hd).1
  · exact (AddMetric_discard a m hd).2

theorem c5_witness :
    (addMeasurement { initialAccumulator with Discard := true } "m" []
      [("f", FieldValue.i 1)] ValueType.Untyped [] 0).Metrics =
        ({ initialAccumulator with Discard := true } : Accumulator).Metrics :=
  (c5_discard_counts_never_stores { initialAccumulator with Discard := true }
    "m" [] [("f", FieldValue.i 1)] ValueType.Untyped [] 0
    ⟨"n", [], [], 0, ValueType.Untyped⟩ rfl).1.2.2.1

/-- C6: a submission with a non-empty field mapping while the discard flag is
unset appends exactly one entry, carrying exactly the supplied name, tags,
fields, kind and timestamp, to both stored sequences; in particular the cpu
scenario stores exactly the supplied point. -/
theorem c6_store_exact (a : Accumulator) (nm : String)
    (tg : List (String × String)) (f0 : String × FieldValue)
    (fs : List (String × FieldValue)) (tp : ValueType) (t : GoTime)
    (ts : List GoTime) (now : GoTime)
    (hd : a.Discard = false) :
    (addMeasurement a nm tg (f0 :: fs) tp (t :: ts) now).Metrics =
      a.Metrics ++ [⟨nm, tg, f0 :: fs, t, tp⟩] ∧
    (addMeasurement a nm tg (f0 :: fs) tp (t :: ts) now).GetTelegrafMetrics =
      a.GetTelegrafMetrics ++ [FromTestMetric ⟨nm, tg, f0 :: fs, t, tp⟩] ∧
    (addMeasurement initialAccumulator "cpu" [] [("time_idle", FieldValue.i 42)]
        ValueType.Counter [1000] 0).Metrics =
      [⟨"cpu", [], [("time_idle", FieldValue.i 42)], 1000, ValueType.Counter⟩] := by
  have hs := addMeasurement_store a nm tg (f0 :: fs) tp (t :: ts) now hd (by simp)
  refine ⟨?_, ?_, by decide⟩
  · simpa [resolveTime] using hs.1
  · simpa [Accumulator.GetTelegrafMetrics, resolveTime] using hs.2

theorem c6_witness :
    (addMeasurement initialAccumulator "cpu" [] [("time_idle", FieldValue.i 42)]
        ValueType.Counter [1000] 0).Metrics =
      initialAccumulator.Metrics ++
        [⟨"cpu", [], [("time_idle", FieldValue.i 42)], 1000, ValueType.Counter⟩] :=
  (c6_store_exact initialAccumulator "cpu" [] ("time_idle", FieldValue.i 42) []
    ValueType.Counter 1000 [] 0 rfl).1

/-- C7: for every Add* call (AddFields/AddCounter/AddGauge/AddSummary/
AddHistogram, all of which delegate to `addMeasurement` with their kind) the
stored timestamp is the supplied one when a timestamp argument is passed;
when it is omitted it comes from the injected clock `TimeFunc`, and from the
wall clock at ingestion when no clock was injected. -/
theorem c7_timestamp_resolution (a : Accumulator) (nm : String)
    (tg : List (String × String)) (f0 : String × FieldValue)
    (fs : List (String × FieldValue)) (tp : ValueType) (now : GoTime)
    (hd : a.Discard = false) :
    (∀ t ts, (addMeasurement a nm tg (f0 :: fs) tp (t :: ts) now).Metrics =
        a.Metrics ++ [⟨nm, tg, f0 :: fs, t, tp⟩]) ∧
    (a.TimeFunc = none →
      (addMeasurement a nm tg (f0 :: fs) tp [] now).Metrics =
        a.Metrics ++ [⟨nm, tg, f0 :: fs, now, tp⟩]) ∧
    (∀ f, a.TimeFunc = some f →
      (addMeasurement a nm tg (f0 :: fs) tp [] now).Metrics =
        a.Metrics ++ [⟨nm, tg, f0 :: fs, f (), tp⟩]) ∧
    (∀ fs2 ts2,
      a.AddFields nm fs2 tg ts2 now = addMeasurement a nm tg fs2 ValueType.Untyped ts2 now ∧
      a.AddCounter nm fs2 tg ts2 now = addMeasurement a nm tg fs2 ValueType.Counter ts2 now ∧
      a.AddGauge nm fs2 tg ts2 now = addMeasurement a nm tg fs2 ValueType.Gauge ts2 now ∧
      a.AddSummary nm fs2 tg ts2 now = addMeasurement a nm tg fs2 ValueType.Summary ts2 now ∧
      a.AddHistogram nm fs2 tg ts2 now = addMeasurement a nm tg fs2 ValueType.Histogram ts2 now) := by
  refine ⟨?_, ?_, ?_, fun fs2 ts2 => ⟨rfl, rfl, rfl, rfl, rfl⟩⟩
  · intro t ts
    simpa [resolveTime] using
      (addMeasurement_store a nm tg (f0 :: fs) tp (t :: ts) now hd (by simp)).1
  · intro htf
    simpa [resolveTime, htf] using
      (addMeasurement_store a nm tg (f0 :: fs) tp [] now hd (by simp)).1
  · intro f htf
    simpa [resolveTime, htf] using
      (addMeasurement_store a nm tg (f0 :: fs) tp [] now hd (by simp)).1

theorem c7_witness :
    (addMeasurement { initialAccumulator with TimeFunc := some (fun _ => 1234) }
        "cpu" [] [("f", FieldValue.i 1)] ValueType.Untyped [] 0).Metrics =
      ({ initialAccumulator with TimeFunc := some (fun _ => 1234) } : Accumulator).Metrics ++
        [⟨"cpu", [], [("f", FieldValue.i 1)], 1234, ValueType.Untyped⟩] :=
  (c7_timestamp_resolution { initialAccumulator with TimeFunc := some (fun _ => 1234) }
    "cpu" [] ("f", FieldValue.i 1) [] ValueType.Untyped 0 rfl).2.2.1 (fun _ => 1234) rfl

/-- C8: `AddError` with a non-nil error appends exactly that error to the end
of the error sequence and (when a condition variable exists) broadcasts to
wake waiters, leaving all other state unchanged; `AddError nil` is a no-op
that leaves the whole accumulator state — waking included — unchanged. -/
theorem c8_addError (a : Accumulator) (e : GoError) :
    ((a.AddError (some e)).Errors = a.Errors ++ [e] ∧
     ((a.AddError (some e)).broadcasts =
        if a.hasCond then a.broadcasts + 1 else a.broadcasts) ∧
     (a.AddError (some e)).nMetrics = a.nMetrics ∧
     (a.AddError (some e)).Metrics = a.Metrics ∧
     (a.AddError (some e)).accumulated = a.accumulated ∧
     (a.AddError (some e)).Discard = a.Discard ∧
     (a.AddError (some e)).deliverChan = a.deliverChan ∧
     (a.AddError (some e)).delivered = a.delivered) ∧
    a.AddError none = a := by
  refine ⟨⟨?_, ?_, ?_, ?_, ?_, ?_, ?_, ?_⟩, rfl⟩ <;>
    simp [Accumulator.AddError, bumpBroadcasts_broadcasts]

/-- C9: `ClearMetrics` resets the ingestion counter to zero and empties both
stored-measurement sequences, and leaves the error sequence, the discard
flag, the delivery channel, the resolved-delivery list (and the remaining
state) unchanged. -/
theorem c9_clearMetrics_frame (a : Accumulator) :
    a.ClearMetrics.nMetrics = 0 ∧
    a.ClearMetrics.Metrics = [] ∧
    a.ClearMetrics.accumulated = [] ∧
    a.ClearMetrics.Errors = a.Errors ∧
    a.ClearMetrics.Discard = a.Discard ∧
    a.ClearMetrics.deliverChan = a.deliverChan ∧
    a.ClearMetrics.delivered = a.delivered ∧
    a.ClearMetrics.TimeFunc = a.TimeFunc ∧
    a.ClearMetrics.debug = a.debug ∧
    a.ClearMetrics.hasCond = a.hasCond ∧
    a.ClearMetrics.broadcasts = a.broadcasts :=
  ⟨rfl, rfl, rfl, rfl, rfl, rfl, rfl, rfl, rfl, rfl, rfl⟩

/-- C10: after every serialised history of accumulator operations starting
from the zero-value accumulator, the test-format `Metrics` list and the
accumulated telegraf-metric list have equal length; each successful store
appends one element to both and `ClearMetrics` empties both. -/
theorem c10_parallel_sequences :
    (∀ ops : List Op, lenInv (runOps initialAccumulator ops)) ∧
    (∀ (a : Accumulator) (m : TMetric), a.Discard = false → m.fields.length ≠ 0 →
      (a.AddMetric m).Metrics.length = a.Metrics.length + 1 ∧
      (a.AddMetric m).accumulated.length = a.accumulated.length + 1) ∧
    (∀ a : Accumulator, a.ClearMetrics.Metrics = [] ∧ a.ClearMetrics.accumulated = []) := by
  refine ⟨fun ops => runOps_lenInv ops initialAccumulator rfl, ?_, fun a => ⟨rfl, rfl⟩⟩
  intro a m hd hf
  obtain ⟨h1, h2⟩ := AddMetric_store a m hd hf
  rw [h1, h2]
  simp

theorem c10_witness :
    (initialAccumulator.AddMetric
        ⟨"m", [], [("f", FieldValue.i 1)], 0, ValueType.Untyped⟩).Metrics.length =
      initialAccumulator.Metrics.length + 1 ∧
    (initialAccumulator.AddMetric
        ⟨"m", [], [("f", FieldValue.i 1)], 0, ValueType.Untyped⟩).accumulated.length =
      initialAccumulator.accumulated.length + 1 :=
  c10_parallel_sequences.2.1 initialAccumulator
    ⟨"m", [], [("f", FieldValue.i 1)], 0, ValueType.Untyped⟩ rfl (by decide)
